import Mathlib

/-!
Verification of the depth-to-space block-rearrangement transform of
`src/assets/depth2space.py`.

Tensors are modelled as a logical shape together with a flat row-major
buffer of rational values.  `view` reinterprets the buffer under a new
shape (failing, as the source runtime does, when the element counts
disagree), and `permute(...).contiguous()` is modelled by materialising
the row-major traversal of the permuted tensor.
-/

/-- Row-major decomposition of a flat offset into one digit per dimension:
for shape `[d₀, …, dₖ]` the first digit is `i / (d₁⋯dₖ)` and the rest is the
decomposition of the remainder. -/
def unflatten : List Nat → Nat → List Nat
  | [], _ => []
  | _ :: ds, i => i / ds.prod :: unflatten ds (i % ds.prod)

/-- Row-major recomposition of per-dimension digits into a flat offset. -/
def flattenIdx : List Nat → List Nat → Nat
  | _ :: ds, x :: xs => x * ds.prod + flattenIdx ds xs
  | _, _ => 0

theorem flattenIdx_lt {shape idx : List Nat}
    (h : List.Forall₂ (· < ·) idx shape) : flattenIdx shape idx < shape.prod := by
  induction h with
  | nil => simp [flattenIdx]
  | @cons x d xs ds hxd _ ih =>
      simp only [flattenIdx, List.prod_cons]
      calc x * ds.prod + flattenIdx ds xs < x * ds.prod + ds.prod :=
            Nat.add_lt_add_left ih _
        _ = (x + 1) * ds.prod := by ring
        _ ≤ d * ds.prod := Nat.mul_le_mul_right _ hxd

theorem prod_pos_of_forall₂ {shape idx : List Nat}
    (h : List.Forall₂ (· < ·) idx shape) : 0 < shape.prod :=
  Nat.pos_of_ne_zero (fun h0 => Nat.not_lt_zero _ (h0 ▸ flattenIdx_lt h))

theorem unflatten_flattenIdx {shape idx : List Nat}
    (h : List.Forall₂ (· < ·) idx shape) :
    unflatten shape (flattenIdx shape idx) = idx := by
  induction h with
  | nil => simp [unflatten, flattenIdx]
  | @cons x d xs ds hxd htl ih =>
      have hlt : flattenIdx ds xs < ds.prod := flattenIdx_lt htl
      have hpos : 0 < ds.prod := prod_pos_of_forall₂ htl
      simp only [unflatten, flattenIdx]
      congr 1
      · rw [Nat.add_comm, Nat.add_mul_div_right _ _ hpos, Nat.div_eq_of_lt hlt,
          Nat.zero_add]
      · rw [Nat.add_comm, Nat.add_mul_mod_self_right, Nat.mod_eq_of_lt hlt, ih]

theorem flattenIdx_unflatten {shape : List Nat} {i : Nat}
    (h : i < shape.prod) : flattenIdx shape (unflatten shape i) = i := by
  induction shape generalizing i with
  | nil =>
      simp only [List.prod_nil, Nat.lt_one_iff] at h
      subst h; rfl
  | cons d ds ih =>
      have hpos : 0 < ds.prod := by
        rcases Nat.eq_zero_or_pos ds.prod with h0 | h0
        · rw [List.prod_cons, h0, Nat.mul_zero] at h; omega
        · exact h0
      simp only [unflatten, flattenIdx]
      rw [ih (Nat.mod_lt _ hpos), Nat.div_add_mod']

theorem unflatten_bounds {shape : List Nat} {i : Nat}
    (h : i < shape.prod) : List.Forall₂ (· < ·) (unflatten shape i) shape := by
  induction shape generalizing i with
  | nil => exact List.Forall₂.nil
  | cons d ds ih =>
      have hpos : 0 < ds.prod := by
        rcases Nat.eq_zero_or_pos ds.prod with h0 | h0
        · rw [List.prod_cons, h0, Nat.mul_zero] at h; omega
        · exact h0
      refine List.Forall₂.cons ?_ (ih (Nat.mod_lt _ hpos))
      rw [List.prod_cons, Nat.mul_comm] at h
      exact Nat.div_lt_of_lt_mul h

theorem unflatten_length (shape : List Nat) (i : Nat) :
    (unflatten shape i).length = shape.length := by
  induction shape generalizing i with
  | nil => rfl
  | cons d ds ih => simp [unflatten, ih]

/-- Error taxonomy of the spec: shape/divisibility violations and
unsupported mode strings. -/
inductive DtoSError where
  | ShapeError : DtoSError
  | UnsupportedModeError (mode : String) : DtoSError
deriving DecidableEq, Repr

/-- A 4-dimensional (or, transiently, higher-rank) tensor: logical shape plus
flat row-major buffer of rational values. -/
structure Tensor where
  shape : List Nat
  data : List ℚ
deriving DecidableEq, Repr

/-- Model of `torch.Tensor.view`: reinterpret the flat buffer of a contiguous tensor
under a new shape; the runtime rejects the call when the element counts
disagree. -/
def Tensor.view (t : Tensor) (newShape : List Nat) : Except DtoSError Tensor :=
  if newShape.prod = t.data.length then
    Except.ok { shape := newShape, data := t.data }
  else
    Except.error DtoSError.ShapeError

/-- Element lookup at a multi-index (row-major). -/
def Tensor.get (t : Tensor) (idx : List Nat) : ℚ :=
  t.data.getD (flattenIdx t.shape idx) 0

/-- The flat input offset read by `permute(perm).contiguous()` to fill flat
output offset `j`: the output digits of `j` are routed back through `perm`
to input digits. -/
def permSigma (shape perm : List Nat) (j : Nat) : Nat :=
  let outIdx := unflatten (perm.map (fun q => shape.getD q 0)) j
  flattenIdx shape
    ((List.range shape.length).map (fun p => outIdx.getD (perm.indexOf p) 0))

/-- Model of `torch.Tensor.permute(perm).contiguous()`: materialise the row-major
traversal of the axis-permuted tensor. -/
def permuteContiguous (t : Tensor) (perm : List Nat) : Tensor :=
  { shape := perm.map (fun q => t.shape.getD q 0),
    data := (List.range (perm.map (fun q => t.shape.getD q 0)).prod).map
      (fun j => t.data.getD (permSigma t.shape perm j) 0) }

def modeDCR : String := "DCR"

def modeCRD : String := "CRD"

def modeXYZ : String := "XYZ"

namespace DepthToSpace_DCR

/-- Source `DepthToSpace_DCR.forward`: `view(b, bs, bs, c // bs², h, w)`,
`permute(0, 3, 4, 1, 5, 2).contiguous()`, `view(b, c // bs², h*bs, w*bs)`. -/
def forward (input : Tensor) (block_size : Nat) (mode : String) : Except DtoSError Tensor :=
  match input.shape with
  | [b, c, h, w] =>
      match input.view [b, block_size, block_size, c / block_size ^ 2, h, w] with
      | Except.error e => Except.error e
      | Except.ok tmp =>
          (permuteContiguous tmp [0, 3, 4, 1, 5, 2]).view
            [b, c / block_size ^ 2, h * block_size, w * block_size]
  | _ => Except.error DtoSError.ShapeError

end DepthToSpace_DCR

namespace DepthToSpace_CRD

/-- Source `DepthToSpace_CRD.forward`: `view(b, c // bs², bs, bs, h, w)`,
`permute(0, 1, 4, 2, 5, 3).contiguous()`, `view(b, c // bs², h*bs, w*bs)`. -/
def forward (input : Tensor) (block_size : Nat) (mode : String) : Except DtoSError Tensor :=
  match input.shape with
  | [b, c, h, w] =>
      match input.view [b, c / block_size ^ 2, block_size, block_size, h, w] with
      | Except.error e => Except.error e
      | Except.ok tmp =>
          (permuteContiguous tmp [0, 1, 4, 2, 5, 3]).view
            [b, c / block_size ^ 2, h * block_size, w * block_size]
  | _ => Except.error DtoSError.ShapeError

end DepthToSpace_CRD

/-- A constructed module: which transform it applies, its block size and the
mode string it will pass through. -/
inductive Model where
  | dcrModule (block_size : Nat) (mode : String) : Model
  | crdModule (block_size : Nat) (mode : String) : Model
deriving DecidableEq, Repr

/-- Source `create_model`: dispatch on the mode string, rejecting anything outside
`{DCR, CRD}` (`raise ValueError("Unknown mode: ...")`). -/
def create_model (block_size : Nat) (mode : String) : Except DtoSError Model :=
  if mode = modeDCR then Except.ok (Model.dcrModule block_size modeDCR)
  else if mode = modeCRD then Except.ok (Model.crdModule block_size modeCRD)
  else Except.error (DtoSError.UnsupportedModeError mode)

/-- Modelled from the spec: the canonical pixel-shuffle reference operator
(`torch.nn.PixelShuffle`, library code not present in `src/`):
`out[b, c, h*s+by, w*s+bx] = in[b, c*s*s + by*s + bx, h, w]` with output
shape `(b, c/(s*s), h*s, w*s)`. -/
def pixelShuffle (t : Tensor) (s : Nat) : Tensor :=
  match t.shape with
  | [b, c, h, w] =>
      { shape := [b, c / (s * s), h * s, w * s],
        data := (List.range ([b, c / (s * s), h * s, w * s].prod)).map (fun j =>
          match unflatten [b, c / (s * s), h * s, w * s] j with
          | [b', c', y, x] =>
              t.data.getD
                (flattenIdx [b, c, h, w]
                  [b', c' * s * s + (y % s) * s + (x % s), y / s, x / s]) 0
          | _ => 0) }
  | _ => t

/-- Check `|a - b| ≤ tol` for rationals by exact cross-multiplication:
`|a.num*b.den - b.num*a.den| * tol.den ≤ tol.num * (a.den * b.den)`. -/
def ratDiffLe (a b tol : ℚ) : Bool :=
  let d := a.num * (b.den : Int) - b.num * (a.den : Int)
  let d := if d < 0 then -d else d
  d * (tol.den : Int) ≤ tol.num * ((a.den : Int) * (b.den : Int))

/-- Elementwise comparison within an absolute tolerance, plus shape
agreement (`torch.allclose` on same-shaped tensors). -/
def allclose (t₁ t₂ : Tensor) (tol : ℚ) : Bool :=
  t₁.shape = t₂.shape && t₁.data.length = t₂.data.length &&
    (List.zip t₁.data t₂.data).all (fun p => ratDiffLe p.1 p.2 tol)

/-- The literal test tensor of `test_depth_to_space`, shape `(1, 8, 2, 2)`. -/
def xLit : Tensor :=
  { shape := [1, 8, 2, 2],
    data := [0, 2, 8, 10, 0, 2, 8, 10, 1, 3, 9, 11, 1, 3, 9, 11,
             4, 6, 12, 14, 4, 6, 12, 14, 5, 7, 13, 15, 5, 7, 13, 15] }

/-- The DCR input-channel index map of the spec:
`c_in = by*s*C_out + bx*C_out + c_out`. -/
def dcr_cin (s C_out br bc c_out : Nat) : Nat :=
  br * s * C_out + bc * C_out + c_out

/-- The CRD input-channel index map of the spec:
`c_in = c_out*s*s + by*s + bx`. -/
def crd_cin (s C_out br bc c_out : Nat) : Nat :=
  c_out * s * s + br * s + bc

deriving instance DecidableEq for Except

/-- C2: on the literal `(1,8,2,2)` test tensor with block size 2, the
CRD-mode transform output equals the canonical pixel-shuffle result
elementwise within `1e-6` tolerance. -/
theorem crd_matches_pixel_shuffle_on_literal :
    (DepthToSpace_CRD.forward xLit 2 modeCRD).map
      (fun y => allclose y (pixelShuffle xLit 2) (mkRat 1 1000000)) =
    Except.ok true := by decide

/-- C6: on the literal `(1,8,2,2)` test tensor with block size 2, the
DCR-mode transform output differs from the CRD-mode transform output at at
least one coordinate. -/
theorem dcr_differs_from_crd_on_literal :
    DepthToSpace_DCR.forward xLit 2 modeDCR ≠
    DepthToSpace_CRD.forward xLit 2 modeCRD := by decide

/-- C8: `create_model` fails with `UnsupportedModeError` exactly on mode
strings outside `{DCR, CRD}`; on `DCR` and `CRD` it succeeds. -/
theorem create_model_mode_policy (block_size : Nat) (mode : String) :
    (mode ≠ "DCR" ∧ mode ≠ "CRD" →
      create_model block_size mode =
        Except.error (DtoSError.UnsupportedModeError mode)) ∧
    (mode = "DCR" ∨ mode = "CRD" →
      ∃ m, create_model block_size mode = Except.ok m) := by
  constructor
  · rintro ⟨h₁, h₂⟩
    simp [create_model, modeDCR, modeCRD, h₁, h₂]
  · rintro (h | h) <;> subst h <;>
      exact ⟨_, rfl⟩

/-- Witness for `create_model_mode_policy` at a rejected and an accepted
mode string. -/
theorem create_model_mode_policy_witness :
    create_model 2 modeXYZ = Except.error (DtoSError.UnsupportedModeError modeXYZ) ∧
    ∃ m, create_model 2 modeDCR = Except.ok m :=
  ⟨(create_model_mode_policy 2 modeXYZ).1 (by exact ⟨by decide, by decide⟩),
   (create_model_mode_policy 2 modeDCR).2 (Or.inl rfl)⟩

/-- C9: both eager forward computations ignore their `mode` argument
entirely: any two mode strings (valid or not) give identical results. -/
theorem forward_ignores_mode (input : Tensor) (block_size : Nat)
    (m₁ m₂ : String) :
    DepthToSpace_DCR.forward input block_size m₁ =
      DepthToSpace_DCR.forward input block_size m₂ ∧
    DepthToSpace_CRD.forward input block_size m₁ =
      DepthToSpace_CRD.forward input block_size m₂ :=
  ⟨rfl, rfl⟩

theorem DCR_forward_eval (b c h w s : Nat) (mode : String) (data : List ℚ)
    (hlen : data.length = b * c * h * w) (hdvd : s ^ 2 ∣ c) :
    DepthToSpace_DCR.forward ⟨[b, c, h, w], data⟩ s mode =
      Except.ok ⟨[b, c / s ^ 2, h * s, w * s],
        (permuteContiguous ⟨[b, s, s, c / s ^ 2, h, w], data⟩
          [0, 3, 4, 1, 5, 2]).data⟩ := by
  have hc : s ^ 2 * (c / s ^ 2) = c := Nat.mul_div_cancel' hdvd
  have h1 : b * (s * (s * (c / s ^ 2 * (h * w)))) = data.length := by
    rw [hlen]
    calc b * (s * (s * (c / s ^ 2 * (h * w))))
        = s ^ 2 * (c / s ^ 2) * (b * (h * w)) := by ring
      _ = c * (b * (h * w)) := by rw [hc]
      _ = b * c * h * w := by ring
  have hperm : ([0, 3, 4, 1, 5, 2].map
      (fun q => [b, s, s, c / s ^ 2, h, w].getD q 0)) =
      [b, c / s ^ 2, h, s, w, s] := rfl
  have h2 : [b, c / s ^ 2, h * s, w * s].prod =
      (permuteContiguous ⟨[b, s, s, c / s ^ 2, h, w], data⟩
        [0, 3, 4, 1, 5, 2]).data.length := by
    simp only [permuteContiguous, List.length_map, List.length_range, hperm,
      List.prod_cons, List.prod_nil, Nat.mul_one]
    ring
  simp [DepthToSpace_DCR.forward, Tensor.view, h1, h2]

theorem CRD_forward_eval (b c h w s : Nat) (mode : String) (data : List ℚ)
    (hlen : data.length = b * c * h * w) (hdvd : s ^ 2 ∣ c) :
    DepthToSpace_CRD.forward ⟨[b, c, h, w], data⟩ s mode =
      Except.ok ⟨[b, c / s ^ 2, h * s, w * s],
        (permuteContiguous ⟨[b, c / s ^ 2, s, s, h, w], data⟩
          [0, 1, 4, 2, 5, 3]).data⟩ := by
  have hc : s ^ 2 * (c / s ^ 2) = c := Nat.mul_div_cancel' hdvd
  have h1 : b * (c / s ^ 2 * (s * (s * (h * w)))) = data.length := by
    rw [hlen]
    calc b * (c / s ^ 2 * (s * (s * (h * w))))
        = s ^ 2 * (c / s ^ 2) * (b * (h * w)) := by ring
      _ = c * (b * (h * w)) := by rw [hc]
      _ = b * c * h * w := by ring
  have hperm : ([0, 1, 4, 2, 5, 3].map
      (fun q => [b, c / s ^ 2, s, s, h, w].getD q 0)) =
      [b, c / s ^ 2, h, s, w, s] := rfl
  have h2 : [b, c / s ^ 2, h * s, w * s].prod =
      (permuteContiguous ⟨[b, c / s ^ 2, s, s, h, w], data⟩
        [0, 1, 4, 2, 5, 3]).data.length := by
    simp only [permuteContiguous, List.length_map, List.length_range, hperm,
      List.prod_cons, List.prod_nil, Nat.mul_one]
    ring
  simp [DepthToSpace_CRD.forward, Tensor.view, h1, h2]

/-- C4: for a well-formed 4-d tensor whose channel count is divisible by
`block_size²`, both modes produce output shape
`(b, c / block_size², h*block_size, w*block_size)`. -/
theorem transform_output_shape (b c h w s : Nat) (mode : String) (data : List ℚ)
    (hlen : data.length = b * c * h * w) (hdvd : s ^ 2 ∣ c) :
    (∃ y, DepthToSpace_DCR.forward ⟨[b, c, h, w], data⟩ s mode = Except.ok y ∧
      y.shape = [b, c / s ^ 2, h * s, w * s]) ∧
    (∃ y, DepthToSpace_CRD.forward ⟨[b, c, h, w], data⟩ s mode = Except.ok y ∧
      y.shape = [b, c / s ^ 2, h * s, w * s]) :=
  ⟨⟨_, DCR_forward_eval b c h w s mode data hlen hdvd, rfl⟩,
   ⟨_, CRD_forward_eval b c h w s mode data hlen hdvd, rfl⟩⟩

/-- Witness for `transform_output_shape` on a concrete `(1,4,1,1)` tensor
with block size 2. -/
theorem transform_output_shape_witness :
    (([(1 : ℚ), 2, 3, 4].length = 1 * 4 * 1 * 1) ∧ 2 ^ 2 ∣ 4) ∧
    ((∃ y, DepthToSpace_DCR.forward ⟨[1, 4, 1, 1], [(1 : ℚ), 2, 3, 4]⟩ 2 modeDCR =
        Except.ok y ∧ y.shape = [1, 4 / 2 ^ 2, 1 * 2, 1 * 2]) ∧
     (∃ y, DepthToSpace_CRD.forward ⟨[1, 4, 1, 1], [(1 : ℚ), 2, 3, 4]⟩ 2 modeDCR =
        Except.ok y ∧ y.shape = [1, 4 / 2 ^ 2, 1 * 2, 1 * 2])) :=
  ⟨⟨by decide, by decide⟩,
   transform_output_shape 1 4 1 1 2 modeDCR [1, 2, 3, 4] (by decide) (by decide)⟩

/-- C7 counterexample: on the zero-element tensor of shape `(0, 8, 1, 1)`
with block size 3 the channel count 8 is not divisible by 9, yet both
modes succeed (every `view` of a zero-element buffer is size-compatible),
so no `ShapeError` is raised. -/
theorem nondivisible_channel_accepted_on_empty_batch :
    ¬ (3 ^ 2 ∣ 8) ∧
    DepthToSpace_DCR.forward ⟨[0, 8, 1, 1], []⟩ 3 modeDCR =
      Except.ok ⟨[0, 0, 3, 3], []⟩ ∧
    DepthToSpace_CRD.forward ⟨[0, 8, 1, 1], []⟩ 3 modeCRD =
      Except.ok ⟨[0, 0, 3, 3], []⟩ := by
  refine ⟨by decide, by decide, by decide⟩

/-- C7 (amended): for a well-formed, non-empty 4-d tensor (`b, h, w ≥ 1`)
whose channel count is not divisible by `block_size²`, both modes fail with
a `ShapeError` at the first `view`, before any rearrangement. -/
theorem transform_rejects_nondivisible_channel (b c h w s : Nat) (mode : String)
    (data : List ℚ) (hlen : data.length = b * c * h * w) (hdvd : ¬ s ^ 2 ∣ c)
    (hb : 0 < b) (hh : 0 < h) (hw : 0 < w) :
    DepthToSpace_DCR.forward ⟨[b, c, h, w], data⟩ s mode =
      Except.error DtoSError.ShapeError ∧
    DepthToSpace_CRD.forward ⟨[b, c, h, w], data⟩ s mode =
      Except.error DtoSError.ShapeError := by
  have hne : s ^ 2 * (c / s ^ 2) ≠ c := fun hEq => hdvd ⟨c / s ^ 2, hEq.symm⟩
  have hle : s ^ 2 * (c / s ^ 2) ≤ c := Nat.mul_div_le c (s ^ 2)
  have hlt : s ^ 2 * (c / s ^ 2) < c := Nat.lt_of_le_of_ne hle hne
  have hbhw : 0 < b * (h * w) := by positivity
  have key : s ^ 2 * (c / s ^ 2) * (b * (h * w)) < c * (b * (h * w)) :=
    Nat.mul_lt_mul_of_lt_of_le hlt (Nat.le_refl _) hbhw
  constructor
  · have h1 : b * (s * (s * (c / s ^ 2 * (h * w)))) ≠ data.length := by
      rw [hlen]
      intro hEq
      apply Nat.ne_of_lt key
      calc s ^ 2 * (c / s ^ 2) * (b * (h * w))
          = b * (s * (s * (c / s ^ 2 * (h * w)))) := by ring
        _ = b * c * h * w := hEq
        _ = c * (b * (h * w)) := by ring
    simp [DepthToSpace_DCR.forward, Tensor.view, h1]
  · have h1 : b * (c / s ^ 2 * (s * (s * (h * w)))) ≠ data.length := by
      rw [hlen]
      intro hEq
      apply Nat.ne_of_lt key
      calc s ^ 2 * (c / s ^ 2) * (b * (h * w))
          = b * (c / s ^ 2 * (s * (s * (h * w)))) := by ring
        _ = b * c * h * w := hEq
        _ = c * (b * (h * w)) := by ring
    simp [DepthToSpace_CRD.forward, Tensor.view, h1]

/-- Witness for `transform_rejects_nondivisible_channel` on a concrete
`(1, 8, 1, 1)` tensor with block size 3. -/
theorem transform_rejects_nondivisible_channel_witness :
    (([(1 : ℚ), 2, 3, 4, 5, 6, 7, 8].length = 1 * 8 * 1 * 1) ∧ ¬ 3 ^ 2 ∣ 8 ∧
      0 < 1) ∧
    (DepthToSpace_DCR.forward ⟨[1, 8, 1, 1], [1, 2, 3, 4, 5, 6, 7, 8]⟩ 3 modeDCR =
      Except.error DtoSError.ShapeError ∧
     DepthToSpace_CRD.forward ⟨[1, 8, 1, 1], [1, 2, 3, 4, 5, 6, 7, 8]⟩ 3 modeDCR =
      Except.error DtoSError.ShapeError) :=
  ⟨⟨by decide, by decide, by decide⟩,
   transform_rejects_nondivisible_channel 1 8 1 1 3 modeDCR
     [1, 2, 3, 4, 5, 6, 7, 8] (by decide) (by decide) (by decide) (by decide)
     (by decide)⟩

theorem permSigma_eval (shape6 perm newShape digits reordered : List Nat)
    (hmap : perm.map (fun q => shape6.getD q 0) = newShape)
    (hb : List.Forall₂ (· < ·) digits newShape)
    (hre : (List.range shape6.length).map
      (fun p => digits.getD (perm.indexOf p) 0) = reordered) :
    permSigma shape6 perm (flattenIdx newShape digits) =
      flattenIdx shape6 reordered := by
  simp only [permSigma, hmap, unflatten_flattenIdx hb, hre]

theorem dcr_permute_getD (B S C' H W : Nat) (data : List ℚ)
    (d0 d1 d2 d3 d4 d5 : Nat) (h0 : d0 < B) (h1 : d1 < C') (h2 : d2 < H)
    (h3 : d3 < S) (h4 : d4 < W) (h5 : d5 < S) :
    (permuteContiguous ⟨[B, S, S, C', H, W], data⟩ [0, 3, 4, 1, 5, 2]).data.getD
        (flattenIdx [B, C', H, S, W, S] [d0, d1, d2, d3, d4, d5]) 0
      = data.getD (flattenIdx [B, S, S, C', H, W] [d0, d3, d5, d1, d2, d4]) 0 := by
  have hb : List.Forall₂ (· < ·) [d0, d1, d2, d3, d4, d5] [B, C', H, S, W, S] := by
    simp [List.forall₂_cons, h0, h1, h2, h3, h4, h5]
  have hσ := permSigma_eval [B, S, S, C', H, W] [0, 3, 4, 1, 5, 2]
    [B, C', H, S, W, S] [d0, d1, d2, d3, d4, d5] [d0, d3, d5, d1, d2, d4] rfl hb rfl
  have hj : flattenIdx [B, C', H, S, W, S] [d0, d1, d2, d3, d4, d5] <
      [B, C', H, S, W, S].prod := flattenIdx_lt hb
  have hlenp : (permuteContiguous ⟨[B, S, S, C', H, W], data⟩
      [0, 3, 4, 1, 5, 2]).data.length = [B, C', H, S, W, S].prod := by
    simp only [permuteContiguous, List.length_map, List.length_range]
    rfl
  rw [List.getD_eq_getElem _ _ (by rw [hlenp]; exact hj)]
  simp only [permuteContiguous, List.getElem_map, List.getElem_range]
  rw [hσ]

/-- C1: in DCR mode, for a well-formed 4-d tensor with channel count
divisible by `s²`, the output element at `(b', c_out, h'*s+by, w'*s+bx)`
equals the input element at `(b', by*s*C_out + bx*C_out + c_out, h', w')`
where `C_out = c / s²`. -/
theorem dcr_index_mapping (b c h w s : Nat) (mode : String) (data : List ℚ)
    (hlen : data.length = b * c * h * w) (hdvd : s ^ 2 ∣ c)
    (b' c' h' w' br bc : Nat)
    (hb' : b' < b) (hc' : c' < c / s ^ 2) (hh' : h' < h) (hw' : w' < w)
    (hbr : br < s) (hbc : bc < s) :
    ∃ y, DepthToSpace_DCR.forward ⟨[b, c, h, w], data⟩ s mode = Except.ok y ∧
      y.get [b', c', h' * s + br, w' * s + bc] =
        Tensor.get ⟨[b, c, h, w], data⟩
          [b', dcr_cin s (c / s ^ 2) br bc c', h', w'] := by
  refine ⟨_, DCR_forward_eval b c h w s mode data hlen hdvd, ?_⟩
  have hc : s ^ 2 * (c / s ^ 2) = c := Nat.mul_div_cancel' hdvd
  simp only [Tensor.get]
  have hidx : flattenIdx [b, c / s ^ 2, h * s, w * s]
      [b', c', h' * s + br, w' * s + bc]
      = flattenIdx [b, c / s ^ 2, h, s, w, s] [b', c', h', br, w', bc] := by
    simp only [flattenIdx, List.prod_cons, List.prod_nil]
    ring
  rw [hidx, dcr_permute_getD b s (c / s ^ 2) h w data b' c' h' br w' bc
    hb' hc' hh' hbr hw' hbc]
  have hidx₂ : flattenIdx [b, s, s, c / s ^ 2, h, w] [b', br, bc, c', h', w']
      = flattenIdx [b, c, h, w] [b', dcr_cin s (c / s ^ 2) br bc c', h', w'] := by
    set k := c / s ^ 2 with hk
    simp only [flattenIdx, List.prod_cons, List.prod_nil, dcr_cin]
    rw [← hc]
    ring
  rw [hidx₂]

/-- Witness for `dcr_index_mapping` on the literal `(1,8,2,2)` test tensor
at output coordinate `(0, 1, 1, 0)` (block row 0, block column 1). -/
theorem dcr_index_mapping_witness :
    (xLit.data.length = 1 * 8 * 2 * 2 ∧ (2 ^ 2 ∣ 8) ∧ 0 < 1 ∧ 1 < 8 / 2 ^ 2 ∧
      0 < 2 ∧ 1 < 2) ∧
    ∃ y, DepthToSpace_DCR.forward ⟨[1, 8, 2, 2], xLit.data⟩ 2 modeDCR =
        Except.ok y ∧
      y.get [0, 1, 0 * 2 + 0, 0 * 2 + 1] =
        Tensor.get ⟨[1, 8, 2, 2], xLit.data⟩
          [0, dcr_cin 2 (8 / 2 ^ 2) 0 1 1, 0, 0] :=
  ⟨⟨by decide, by decide, by decide, by decide, by decide, by decide⟩,
   dcr_index_mapping 1 8 2 2 2 modeDCR xLit.data (by decide) (by decide)
     0 1 0 0 0 1 (by decide) (by decide) (by decide) (by decide) (by decide)
     (by decide)⟩

theorem crd_permute_getD (B S C' H W : Nat) (data : List ℚ)
    (d0 d1 d2 d3 d4 d5 : Nat) (h0 : d0 < B) (h1 : d1 < C') (h2 : d2 < H)
    (h3 : d3 < S) (h4 : d4 < W) (h5 : d5 < S) :
    (permuteContiguous ⟨[B, C', S, S, H, W], data⟩ [0, 1, 4, 2, 5, 3]).data.getD
        (flattenIdx [B, C', H, S, W, S] [d0, d1, d2, d3, d4, d5]) 0
      = data.getD (flattenIdx [B, C', S, S, H, W] [d0, d1, d3, d5, d2, d4]) 0 := by
  have hb : List.Forall₂ (· < ·) [d0, d1, d2, d3, d4, d5] [B, C', H, S, W, S] := by
    simp [List.forall₂_cons, h0, h1, h2, h3, h4, h5]
  have hσ := permSigma_eval [B, C', S, S, H, W] [0, 1, 4, 2, 5, 3]
    [B, C', H, S, W, S] [d0, d1, d2, d3, d4, d5] [d0, d1, d3, d5, d2, d4] rfl hb rfl
  have hj : flattenIdx [B, C', H, S, W, S] [d0, d1, d2, d3, d4, d5] <
      [B, C', H, S, W, S].prod := flattenIdx_lt hb
  have hlenp : (permuteContiguous ⟨[B, C', S, S, H, W], data⟩
      [0, 1, 4, 2, 5, 3]).data.length = [B, C', H, S, W, S].prod := by
    simp only [permuteContiguous, List.length_map, List.length_range]
    rfl
  rw [List.getD_eq_getElem _ _ (by rw [hlenp]; exact hj)]
  simp only [permuteContiguous, List.getElem_map, List.getElem_range]
  rw [hσ]

theorem exists_digits6 (a0 a1 a2 a3 a4 a5 j : Nat)
    (hj : j < [a0, a1, a2, a3, a4, a5].prod) :
    ∃ d0 d1 d2 d3 d4 d5, d0 < a0 ∧ d1 < a1 ∧ d2 < a2 ∧ d3 < a3 ∧ d4 < a4 ∧
      d5 < a5 ∧
      j = flattenIdx [a0, a1, a2, a3, a4, a5] [d0, d1, d2, d3, d4, d5] := by
  have hb := unflatten_bounds hj
  have hf := flattenIdx_unflatten hj
  simp only [unflatten] at hb hf
  simp only [List.forall₂_cons] at hb
  exact ⟨_, _, _, _, _, _, hb.1, hb.2.1, hb.2.2.1, hb.2.2.2.1, hb.2.2.2.2.1,
    hb.2.2.2.2.2.1, hf.symm⟩

theorem dcr_permute_data_id (b c h w : Nat) (data : List ℚ)
    (hlen : data.length = b * c * h * w) :
    (permuteContiguous ⟨[b, 1, 1, c, h, w], data⟩ [0, 3, 4, 1, 5, 2]).data =
      data := by
  have hP : [b, c, h, 1, w, 1].prod = data.length := by
    simp only [List.prod_cons, List.prod_nil, Nat.mul_one, Nat.one_mul]
    rw [hlen]; ring
  apply List.ext_getElem
  · simp only [permuteContiguous, List.length_map, List.length_range]
    exact hP
  · intro i hi₁ hi₂
    simp only [permuteContiguous, List.getElem_map, List.getElem_range]
    have hi : i < [b, c, h, 1, w, 1].prod := by rw [hP]; exact hi₂
    obtain ⟨d0, d1, d2, d3, d4, d5, g0, g1, g2, g3, g4, g5, hj⟩ :=
      exists_digits6 b c h 1 w 1 i hi
    subst hj
    have h3 : d3 = 0 := by omega
    have h5 : d5 = 0 := by omega
    subst h3; subst h5
    have hb : List.Forall₂ (· < ·) [d0, d1, d2, 0, d4, 0] [b, c, h, 1, w, 1] := by
      simp [List.forall₂_cons, g0, g1, g2, g4]
    rw [permSigma_eval [b, 1, 1, c, h, w] [0, 3, 4, 1, 5, 2] [b, c, h, 1, w, 1]
      [d0, d1, d2, 0, d4, 0] [d0, 0, 0, d1, d2, d4] rfl hb rfl]
    have hflat : flattenIdx [b, 1, 1, c, h, w] [d0, 0, 0, d1, d2, d4] =
        flattenIdx [b, c, h, 1, w, 1] [d0, d1, d2, 0, d4, 0] := by
      simp only [flattenIdx, List.prod_cons, List.prod_nil]
      ring
    rw [hflat, List.getD_eq_getElem]

theorem crd_permute_data_id (b c h w : Nat) (data : List ℚ)
    (hlen : data.length = b * c * h * w) :
    (permuteContiguous ⟨[b, c, 1, 1, h, w], data⟩ [0, 1, 4, 2, 5, 3]).data =
      data := by
  have hP : [b, c, h, 1, w, 1].prod = data.length := by
    simp only [List.prod_cons, List.prod_nil, Nat.mul_one, Nat.one_mul]
    rw [hlen]; ring
  apply List.ext_getElem
  · simp only [permuteContiguous, List.length_map, List.length_range]
    exact hP
  · intro i hi₁ hi₂
    simp only [permuteContiguous, List.getElem_map, List.getElem_range]
    have hi : i < [b, c, h, 1, w, 1].prod := by rw [hP]; exact hi₂
    obtain ⟨d0, d1, d2, d3, d4, d5, g0, g1, g2, g3, g4, g5, hj⟩ :=
      exists_digits6 b c h 1 w 1 i hi
    subst hj
    have h3 : d3 = 0 := by omega
    have h5 : d5 = 0 := by omega
    subst h3; subst h5
    have hb : List.Forall₂ (· < ·) [d0, d1, d2, 0, d4, 0] [b, c, h, 1, w, 1] := by
      simp [List.forall₂_cons, g0, g1, g2, g4]
    rw [permSigma_eval [b, c, 1, 1, h, w] [0, 1, 4, 2, 5, 3] [b, c, h, 1, w, 1]
      [d0, d1, d2, 0, d4, 0] [d0, d1, 0, 0, d2, d4] rfl hb rfl]
    have hflat : flattenIdx [b, c, 1, 1, h, w] [d0, d1, 0, 0, d2, d4] =
        flattenIdx [b, c, h, 1, w, 1] [d0, d1, d2, 0, d4, 0] := by
      simp only [flattenIdx, List.prod_cons, List.prod_nil]
      ring
    rw [hflat, List.getD_eq_getElem]

/-- C5: with block size 1 both modes are the identity transform on every
well-formed 4-d tensor. -/
theorem transform_identity_block_one (t : Tensor) (b c h w : Nat) (mode : String)
    (hshape : t.shape = [b, c, h, w]) (hlen : t.data.length = b * c * h * w) :
    DepthToSpace_DCR.forward t 1 mode = Except.ok t ∧
    DepthToSpace_CRD.forward t 1 mode = Except.ok t := by
  obtain ⟨shape, data⟩ := t
  simp only at hshape hlen
  subst hshape
  have hdvd : (1 : Nat) ^ 2 ∣ c := by norm_num
  have hc1 : c / 1 ^ 2 = c := by norm_num
  constructor
  · have hev := DCR_forward_eval b c h w 1 mode data hlen hdvd
    rw [hc1] at hev
    simp only [Nat.mul_one] at hev
    rw [hev, dcr_permute_data_id b c h w data hlen]
  · have hev := CRD_forward_eval b c h w 1 mode data hlen hdvd
    rw [hc1] at hev
    simp only [Nat.mul_one] at hev
    rw [hev, crd_permute_data_id b c h w data hlen]

/-- Witness for `transform_identity_block_one` on the literal `(1,8,2,2)`
test tensor. -/
theorem transform_identity_block_one_witness :
    (xLit.shape = [1, 8, 2, 2] ∧ xLit.data.length = 1 * 8 * 2 * 2) ∧
    (DepthToSpace_DCR.forward xLit 1 modeDCR = Except.ok xLit ∧
     DepthToSpace_CRD.forward xLit 1 modeDCR = Except.ok xLit) :=
  ⟨⟨by decide, by decide⟩,
   transform_identity_block_one xLit 1 8 2 2 modeDCR (by decide) (by decide)⟩

/-- C10: when the channel count equals `block_size²` (single output
channel), the DCR and CRD transforms coincide on every well-formed input. -/
theorem dcr_eq_crd_single_output_channel (b h w s : Nat) (mode : String)
    (data : List ℚ) (hs : 0 < s) (hlen : data.length = b * (s * s) * h * w) :
    DepthToSpace_DCR.forward ⟨[b, s * s, h, w], data⟩ s mode =
      DepthToSpace_CRD.forward ⟨[b, s * s, h, w], data⟩ s mode := by
  have hdvd : s ^ 2 ∣ s * s := ⟨1, by ring⟩
  have hc1 : s * s / s ^ 2 = 1 := by
    rw [pow_two]
    exact Nat.div_self (Nat.mul_pos hs hs)
  have hevD := DCR_forward_eval b (s * s) h w s mode data hlen hdvd
  have hevC := CRD_forward_eval b (s * s) h w s mode data hlen hdvd
  rw [hc1] at hevD hevC
  rw [hevD, hevC]
  simp only [Except.ok.injEq, Tensor.mk.injEq, true_and]
  apply List.ext_getElem
  · simp only [permuteContiguous, List.length_map, List.length_range]
    rfl
  · intro i hi₁ hi₂
    simp only [permuteContiguous, List.getElem_map, List.getElem_range]
    have hi : i < [b, 1, h, s, w, s].prod := by
      simp only [permuteContiguous, List.length_map, List.length_range] at hi₁
      exact hi₁
    obtain ⟨d0, d1, d2, d3, d4, d5, g0, g1, g2, g3, g4, g5, hj⟩ :=
      exists_digits6 b 1 h s w s i hi
    subst hj
    have h1 : d1 = 0 := by omega
    subst h1
    have hbD : List.Forall₂ (· < ·) [d0, 0, d2, d3, d4, d5] [b, 1, h, s, w, s] := by
      simp [List.forall₂_cons, g0, g2, g3, g4, g5]
    rw [permSigma_eval [b, s, s, 1, h, w] [0, 3, 4, 1, 5, 2] [b, 1, h, s, w, s]
        [d0, 0, d2, d3, d4, d5] [d0, d3, d5, 0, d2, d4] rfl hbD rfl,
      permSigma_eval [b, 1, s, s, h, w] [0, 1, 4, 2, 5, 3] [b, 1, h, s, w, s]
        [d0, 0, d2, d3, d4, d5] [d0, 0, d3, d5, d2, d4] rfl hbD rfl]
    have hflat : flattenIdx [b, s, s, 1, h, w] [d0, d3, d5, 0, d2, d4] =
        flattenIdx [b, 1, s, s, h, w] [d0, 0, d3, d5, d2, d4] := by
      simp only [flattenIdx, List.prod_cons, List.prod_nil]
      ring
    rw [hflat]

/-- Witness for `dcr_eq_crd_single_output_channel` on a concrete `(1,4,1,1)`
tensor with block size 2. -/
theorem dcr_eq_crd_single_output_channel_witness :
    (0 < 2 ∧ [(1 : ℚ), 2, 3, 4].length = 1 * (2 * 2) * 1 * 1) ∧
    DepthToSpace_DCR.forward ⟨[1, 2 * 2, 1, 1], [1, 2, 3, 4]⟩ 2 modeDCR =
      DepthToSpace_CRD.forward ⟨[1, 2 * 2, 1, 1], [1, 2, 3, 4]⟩ 2 modeDCR :=
  ⟨⟨by decide, by decide⟩,
   dcr_eq_crd_single_output_channel 1 1 1 2 modeDCR [1, 2, 3, 4] (by decide)
     (by decide)⟩

theorem exists_digits3 (a0 a1 a2 j : Nat) (hj : j < [a0, a1, a2].prod) :
    ∃ d0 d1 d2, d0 < a0 ∧ d1 < a1 ∧ d2 < a2 ∧
      j = flattenIdx [a0, a1, a2] [d0, d1, d2] := by
  have hb := unflatten_bounds hj
  have hf := flattenIdx_unflatten hj
  simp only [unflatten] at hb hf
  simp only [List.forall₂_cons] at hb
  exact ⟨_, _, _, hb.1, hb.2.1, hb.2.2.1, hf.symm⟩

theorem dcr_cin_flatten (s C br bc c' : Nat) :
    dcr_cin s C br bc c' = flattenIdx [s, s, C] [br, bc, c'] := by
  simp only [dcr_cin, flattenIdx, List.prod_cons, List.prod_nil]
  ring

theorem crd_cin_flatten (s C br bc c' : Nat) :
    crd_cin s C br bc c' = flattenIdx [C, s, s] [c', br, bc] := by
  simp only [crd_cin, flattenIdx, List.prod_cons, List.prod_nil]
  ring

theorem dcr_cin_bijOn (s C_out : Nat) :
    Set.BijOn (fun p : Nat × Nat × Nat => dcr_cin s C_out p.2.1 p.2.2 p.1)
      {p : Nat × Nat × Nat | p.1 < C_out ∧ p.2.1 < s ∧ p.2.2 < s}
      {n : Nat | n < C_out * s * s} := by
  have hp : [s, s, C_out].prod = C_out * s * s := by
    simp only [List.prod_cons, List.prod_nil, Nat.mul_one]
    ring
  refine ⟨?_, ?_, ?_⟩
  · rintro ⟨c', br, bc⟩ ⟨h1, h2, h3⟩
    have hb : List.Forall₂ (· < ·) [br, bc, c'] [s, s, C_out] := by
      simp [List.forall₂_cons, h1, h2, h3]
    simp only [Set.mem_setOf_eq, dcr_cin_flatten]
    rw [← hp]
    exact flattenIdx_lt hb
  · rintro ⟨c₁, br₁, bc₁⟩ ⟨h1, h2, h3⟩ ⟨c₂, br₂, bc₂⟩ ⟨h4, h5, h6⟩ hEq
    simp only [dcr_cin_flatten] at hEq
    have hb₁ : List.Forall₂ (· < ·) [br₁, bc₁, c₁] [s, s, C_out] := by
      simp [List.forall₂_cons, h1, h2, h3]
    have hb₂ : List.Forall₂ (· < ·) [br₂, bc₂, c₂] [s, s, C_out] := by
      simp [List.forall₂_cons, h4, h5, h6]
    have key : [br₁, bc₁, c₁] = [br₂, bc₂, c₂] := by
      rw [← unflatten_flattenIdx hb₁, ← unflatten_flattenIdx hb₂, hEq]
    simp only [List.cons.injEq, and_true] at key
    obtain ⟨k1, k2, k3⟩ := key
    simp [k1, k2, k3]
  · rintro n hn
    have hn' : n < [s, s, C_out].prod := by rw [hp]; exact hn
    obtain ⟨e0, e1, e2, g0, g1, g2, hEq⟩ := exists_digits3 s s C_out n hn'
    refine ⟨(e2, e0, e1), ⟨g2, g0, g1⟩, ?_⟩
    simp only [dcr_cin_flatten]
    exact hEq.symm

theorem crd_cin_bijOn (s C_out : Nat) :
    Set.BijOn (fun p : Nat × Nat × Nat => crd_cin s C_out p.2.1 p.2.2 p.1)
      {p : Nat × Nat × Nat | p.1 < C_out ∧ p.2.1 < s ∧ p.2.2 < s}
      {n : Nat | n < C_out * s * s} := by
  have hp : [C_out, s, s].prod = C_out * s * s := by
    simp only [List.prod_cons, List.prod_nil, Nat.mul_one]
    ring
  refine ⟨?_, ?_, ?_⟩
  · rintro ⟨c', br, bc⟩ ⟨h1, h2, h3⟩
    have hb : List.Forall₂ (· < ·) [c', br, bc] [C_out, s, s] := by
      simp [List.forall₂_cons, h1, h2, h3]
    simp only [Set.mem_setOf_eq, crd_cin_flatten]
    rw [← hp]
    exact flattenIdx_lt hb
  · rintro ⟨c₁, br₁, bc₁⟩ ⟨h1, h2, h3⟩ ⟨c₂, br₂, bc₂⟩ ⟨h4, h5, h6⟩ hEq
    simp only [crd_cin_flatten] at hEq
    have hb₁ : List.Forall₂ (· < ·) [c₁, br₁, bc₁] [C_out, s, s] := by
      simp [List.forall₂_cons, h1, h2, h3]
    have hb₂ : List.Forall₂ (· < ·) [c₂, br₂, bc₂] [C_out, s, s] := by
      simp [List.forall₂_cons, h4, h5, h6]
    have key : [c₁, br₁, bc₁] = [c₂, br₂, bc₂] := by
      rw [← unflatten_flattenIdx hb₁, ← unflatten_flattenIdx hb₂, hEq]
    simp only [List.cons.injEq, and_true] at key
    obtain ⟨k1, k2, k3⟩ := key
    simp [k1, k2, k3]
  · rintro n hn
    have hn' : n < [C_out, s, s].prod := by rw [hp]; exact hn
    obtain ⟨e0, e1, e2, g0, g1, g2, hEq⟩ := exists_digits3 C_out s s n hn'
    refine ⟨(e0, e1, e2), ⟨g0, g1, g2⟩, ?_⟩
    simp only [crd_cin_flatten]
    exact hEq.symm

theorem range_map_getD_perm (l : List ℚ) (n : Nat) (σ τ : Nat → Nat)
    (hl : l.length = n)
    (hσ : ∀ j, j < n → σ j < n) (hτ : ∀ i, i < n → τ i < n)
    (hτσ : ∀ j, j < n → τ (σ j) = j) (hστ : ∀ i, i < n → σ (τ i) = i) :
    ((List.range n).map (fun j => l.getD (σ j) 0)).Perm l := by
  have hmaps : ((List.range n).map σ).Perm (List.range n) := by
    have hnd : ((List.range n).map σ).Nodup := by
      refine List.Nodup.map_on ?_ (List.nodup_range n)
      intro x hx y hy hxy
      have hx' : x < n := List.mem_range.mp hx
      have hy' : y < n := List.mem_range.mp hy
      rw [← hτσ x hx', ← hτσ y hy', hxy]
    rw [List.perm_ext_iff_of_nodup hnd (List.nodup_range n)]
    intro a
    constructor
    · intro ha
      rw [List.mem_map] at ha
      obtain ⟨j, hj, rfl⟩ := ha
      exact List.mem_range.mpr (hσ j (List.mem_range.mp hj))
    · intro ha
      have ha' : a < n := List.mem_range.mp ha
      rw [List.mem_map]
      exact ⟨τ a, List.mem_range.mpr (hτ a ha'), hστ a ha'⟩
  have h2 : ((List.range n).map (fun j => l.getD (σ j) 0)) =
      ((List.range n).map σ).map (fun i => l.getD i 0) := by
    rw [List.map_map]
    rfl
  have hid : (List.range n).map (fun i => l.getD i 0) = l := by
    apply List.ext_getElem
    · simp [hl]
    · intro i hi₁ hi₂
      simp only [List.getElem_map, List.getElem_range]
      rw [List.getD_eq_getElem]
  rw [h2]
  have hfin := List.Perm.map (fun i => l.getD i 0) hmaps
  rw [hid] at hfin
  exact hfin

theorem dcr_perm_data (B C' S H W : Nat) (data : List ℚ)
    (hlen : data.length = B * (C' * S * S) * H * W) :
    ((permuteContiguous ⟨[B, S, S, C', H, W], data⟩
      [0, 3, 4, 1, 5, 2]).data).Perm data := by
  have hPn : (List.map (fun q => [B, S, S, C', H, W].getD q 0)
      [0, 3, 4, 1, 5, 2]).prod = data.length := by
    show [B, C', H, S, W, S].prod = data.length
    simp only [List.prod_cons, List.prod_nil, Nat.mul_one]
    rw [hlen]; ring
  have hNn : [B, S, S, C', H, W].prod = data.length := by
    simp only [List.prod_cons, List.prod_nil, Nat.mul_one]
    rw [hlen]; ring
  have hPn' : [B, C', H, S, W, S].prod = data.length := by
    simp only [List.prod_cons, List.prod_nil, Nat.mul_one]
    rw [hlen]; ring
  simp only [permuteContiguous]
  rw [hPn]
  refine range_map_getD_perm data data.length
    (permSigma [B, S, S, C', H, W] [0, 3, 4, 1, 5, 2])
    (permSigma [B, C', H, S, W, S] [0, 3, 5, 1, 2, 4]) rfl ?_ ?_ ?_ ?_
  · intro j hj
    have hj' : j < [B, C', H, S, W, S].prod := by rw [hPn']; exact hj
    obtain ⟨d0, d1, d2, d3, d4, d5, g0, g1, g2, g3, g4, g5, hjEq⟩ :=
      exists_digits6 B C' H S W S j hj'
    subst hjEq
    rw [permSigma_eval [B, S, S, C', H, W] [0, 3, 4, 1, 5, 2] [B, C', H, S, W, S]
      [d0, d1, d2, d3, d4, d5] [d0, d3, d5, d1, d2, d4] rfl
      (by simp [List.forall₂_cons, g0, g1, g2, g3, g4, g5]) rfl]
    rw [← hNn]
    exact flattenIdx_lt (by simp [List.forall₂_cons, g0, g1, g2, g3, g4, g5])
  · intro i hi
    have hi' : i < [B, S, S, C', H, W].prod := by rw [hNn]; exact hi
    obtain ⟨e0, e1, e2, e3, e4, e5, g0, g1, g2, g3, g4, g5, hiEq⟩ :=
      exists_digits6 B S S C' H W i hi'
    subst hiEq
    rw [permSigma_eval [B, C', H, S, W, S] [0, 3, 5, 1, 2, 4] [B, S, S, C', H, W]
      [e0, e1, e2, e3, e4, e5] [e0, e3, e4, e1, e5, e2] rfl
      (by simp [List.forall₂_cons, g0, g1, g2, g3, g4, g5]) rfl]
    rw [← hPn']
    exact flattenIdx_lt (by simp [List.forall₂_cons, g0, g1, g2, g3, g4, g5])
  · intro j hj
    have hj' : j < [B, C', H, S, W, S].prod := by rw [hPn']; exact hj
    obtain ⟨d0, d1, d2, d3, d4, d5, g0, g1, g2, g3, g4, g5, hjEq⟩ :=
      exists_digits6 B C' H S W S j hj'
    subst hjEq
    rw [permSigma_eval [B, S, S, C', H, W] [0, 3, 4, 1, 5, 2] [B, C', H, S, W, S]
      [d0, d1, d2, d3, d4, d5] [d0, d3, d5, d1, d2, d4] rfl
      (by simp [List.forall₂_cons, g0, g1, g2, g3, g4, g5]) rfl]
    rw [permSigma_eval [B, C', H, S, W, S] [0, 3, 5, 1, 2, 4] [B, S, S, C', H, W]
      [d0, d3, d5, d1, d2, d4] [d0, d1, d2, d3, d4, d5] rfl
      (by simp [List.forall₂_cons, g0, g1, g2, g3, g4, g5]) rfl]
  · intro i hi
    have hi' : i < [B, S, S, C', H, W].prod := by rw [hNn]; exact hi
    obtain ⟨e0, e1, e2, e3, e4, e5, g0, g1, g2, g3, g4, g5, hiEq⟩ :=
      exists_digits6 B S S C' H W i hi'
    subst hiEq
    rw [permSigma_eval [B, C', H, S, W, S] [0, 3, 5, 1, 2, 4] [B, S, S, C', H, W]
      [e0, e1, e2, e3, e4, e5] [e0, e3, e4, e1, e5, e2] rfl
      (by simp [List.forall₂_cons, g0, g1, g2, g3, g4, g5]) rfl]
    rw [permSigma_eval [B, S, S, C', H, W] [0, 3, 4, 1, 5, 2] [B, C', H, S, W, S]
      [e0, e3, e4, e1, e5, e2] [e0, e1, e2, e3, e4, e5] rfl
      (by simp [List.forall₂_cons, g0, g1, g2, g3, g4, g5]) rfl]

theorem crd_perm_data (B C' S H W : Nat) (data : List ℚ)
    (hlen : data.length = B * (C' * S * S) * H * W) :
    ((permuteContiguous ⟨[B, C', S, S, H, W], data⟩
      [0, 1, 4, 2, 5, 3]).data).Perm data := by
  have hPn : (List.map (fun q => [B, C', S, S, H, W].getD q 0)
      [0, 1, 4, 2, 5, 3]).prod = data.length := by
    show [B, C', H, S, W, S].prod = data.length
    simp only [List.prod_cons, List.prod_nil, Nat.mul_one]
    rw [hlen]; ring
  have hNn : [B, C', S, S, H, W].prod = data.length := by
    simp only [List.prod_cons, List.prod_nil, Nat.mul_one]
    rw [hlen]; ring
  have hPn' : [B, C', H, S, W, S].prod = data.length := by
    simp only [List.prod_cons, List.prod_nil, Nat.mul_one]
    rw [hlen]; ring
  simp only [permuteContiguous]
  rw [hPn]
  refine range_map_getD_perm data data.length
    (permSigma [B, C', S, S, H, W] [0, 1, 4, 2, 5, 3])
    (permSigma [B, C', H, S, W, S] [0, 1, 3, 5, 2, 4]) rfl ?_ ?_ ?_ ?_
  · intro j hj
    have hj' : j < [B, C', H, S, W, S].prod := by rw [hPn']; exact hj
    obtain ⟨d0, d1, d2, d3, d4, d5, g0, g1, g2, g3, g4, g5, hjEq⟩ :=
      exists_digits6 B C' H S W S j hj'
    subst hjEq
    rw [permSigma_eval [B, C', S, S, H, W] [0, 1, 4, 2, 5, 3] [B, C', H, S, W, S]
      [d0, d1, d2, d3, d4, d5] [d0, d1, d3, d5, d2, d4] rfl
      (by simp [List.forall₂_cons, g0, g1, g2, g3, g4, g5]) rfl]
    rw [← hNn]
    exact flattenIdx_lt (by simp [List.forall₂_cons, g0, g1, g2, g3, g4, g5])
  · intro i hi
    have hi' : i < [B, C', S, S, H, W].prod := by rw [hNn]; exact hi
    obtain ⟨e0, e1, e2, e3, e4, e5, g0, g1, g2, g3, g4, g5, hiEq⟩ :=
      exists_digits6 B C' S S H W i hi'
    subst hiEq
    rw [permSigma_eval [B, C', H, S, W, S] [0, 1, 3, 5, 2, 4] [B, C', S, S, H, W]
      [e0, e1, e2, e3, e4, e5] [e0, e1, e4, e2, e5, e3] rfl
      (by simp [List.forall₂_cons, g0, g1, g2, g3, g4, g5]) rfl]
    rw [← hPn']
    exact flattenIdx_lt (by simp [List.forall₂_cons, g0, g1, g2, g3, g4, g5])
  · intro j hj
    have hj' : j < [B, C', H, S, W, S].prod := by rw [hPn']; exact hj
    obtain ⟨d0, d1, d2, d3, d4, d5, g0, g1, g2, g3, g4, g5, hjEq⟩ :=
      exists_digits6 B C' H S W S j hj'
    subst hjEq
    rw [permSigma_eval [B, C', S, S, H, W] [0, 1, 4, 2, 5, 3] [B, C', H, S, W, S]
      [d0, d1, d2, d3, d4, d5] [d0, d1, d3, d5, d2, d4] rfl
      (by simp [List.forall₂_cons, g0, g1, g2, g3, g4, g5]) rfl]
    rw [permSigma_eval [B, C', H, S, W, S] [0, 1, 3, 5, 2, 4] [B, C', S, S, H, W]
      [d0, d1, d3, d5, d2, d4] [d0, d1, d2, d3, d4, d5] rfl
      (by simp [List.forall₂_cons, g0, g1, g2, g3, g4, g5]) rfl]
  · intro i hi
    have hi' : i < [B, C', S, S, H, W].prod := by rw [hNn]; exact hi
    obtain ⟨e0, e1, e2, e3, e4, e5, g0, g1, g2, g3, g4, g5, hiEq⟩ :=
      exists_digits6 B C' S S H W i hi'
    subst hiEq
    rw [permSigma_eval [B, C', H, S, W, S] [0, 1, 3, 5, 2, 4] [B, C', S, S, H, W]
      [e0, e1, e2, e3, e4, e5] [e0, e1, e4, e2, e5, e3] rfl
      (by simp [List.forall₂_cons, g0, g1, g2, g3, g4, g5]) rfl]
    rw [permSigma_eval [B, C', S, S, H, W] [0, 1, 4, 2, 5, 3] [B, C', H, S, W, S]
      [e0, e1, e4, e2, e5, e3] [e0, e1, e2, e3, e4, e5] rfl
      (by simp [List.forall₂_cons, g0, g1, g2, g3, g4, g5]) rfl]

/-- C3: for block size `s ≥ 1` and channel count `C_out*s*s`, both mode
index maps are bijections from triples `(c_out, by, bx)` onto the input
channel range, and consequently each transform's output buffer is a
permutation of the input buffer (no element duplicated or dropped). -/
theorem index_mapping_bijective (s C_out : Nat) (hs : 0 < s) :
    Set.BijOn (fun p : Nat × Nat × Nat => dcr_cin s C_out p.2.1 p.2.2 p.1)
      {p : Nat × Nat × Nat | p.1 < C_out ∧ p.2.1 < s ∧ p.2.2 < s}
      {n : Nat | n < C_out * s * s} ∧
    Set.BijOn (fun p : Nat × Nat × Nat => crd_cin s C_out p.2.1 p.2.2 p.1)
      {p : Nat × Nat × Nat | p.1 < C_out ∧ p.2.1 < s ∧ p.2.2 < s}
      {n : Nat | n < C_out * s * s} ∧
    ∀ (b h w : Nat) (mode : String) (data : List ℚ),
      data.length = b * (C_out * s * s) * h * w →
      (∃ y, DepthToSpace_DCR.forward ⟨[b, C_out * s * s, h, w], data⟩ s mode =
          Except.ok y ∧ y.data.Perm data) ∧
      (∃ y, DepthToSpace_CRD.forward ⟨[b, C_out * s * s, h, w], data⟩ s mode =
          Except.ok y ∧ y.data.Perm data) := by
  refine ⟨dcr_cin_bijOn s C_out, crd_cin_bijOn s C_out, ?_⟩
  intro b h w mode data hlen
  have hdvd : s ^ 2 ∣ C_out * s * s := ⟨C_out, by ring⟩
  have hc1 : C_out * s * s / s ^ 2 = C_out := by
    rw [show C_out * s * s = s ^ 2 * C_out from by ring]
    exact Nat.mul_div_cancel_left C_out (by positivity)
  constructor
  · have hev := DCR_forward_eval b (C_out * s * s) h w s mode data hlen hdvd
    rw [hc1] at hev
    exact ⟨_, hev, dcr_perm_data b C_out s h w data hlen⟩
  · have hev := CRD_forward_eval b (C_out * s * s) h w s mode data hlen hdvd
    rw [hc1] at hev
    exact ⟨_, hev, crd_perm_data b C_out s h w data hlen⟩

/-- Witness for `index_mapping_bijective` at block size 2 with two output
channels. -/
theorem index_mapping_bijective_witness :
    0 < 2 ∧
    (Set.BijOn (fun p : Nat × Nat × Nat => dcr_cin 2 2 p.2.1 p.2.2 p.1)
        {p : Nat × Nat × Nat | p.1 < 2 ∧ p.2.1 < 2 ∧ p.2.2 < 2}
        {n : Nat | n < 2 * 2 * 2} ∧
      Set.BijOn (fun p : Nat × Nat × Nat => crd_cin 2 2 p.2.1 p.2.2 p.1)
        {p : Nat × Nat × Nat | p.1 < 2 ∧ p.2.1 < 2 ∧ p.2.2 < 2}
        {n : Nat | n < 2 * 2 * 2} ∧
      ∀ (b h w : Nat) (mode : String) (data : List ℚ),
        data.length = b * (2 * 2 * 2) * h * w →
        (∃ y, DepthToSpace_DCR.forward ⟨[b, 2 * 2 * 2, h, w], data⟩ 2 mode =
            Except.ok y ∧ y.data.Perm data) ∧
        (∃ y, DepthToSpace_CRD.forward ⟨[b, 2 * 2 * 2, h, w], data⟩ 2 mode =
            Except.ok y ∧ y.data.Perm data)) :=
  ⟨by decide, index_mapping_bijective 2 2 (by decide)⟩
